import Mathlib

/-!
Shallow embedding of the cbs booking core (`bookingdata.cpp`, `stringidmap.cpp`)
and proofs about it.

Conventions of the embedding:
* `unordered_set` / `unordered_map` arguments and fields are embedded as lists
  of elements / key-value pairs in iteration order; the C++ standard leaves the
  iteration order of the unordered containers unspecified, so properties that
  must hold for every call are quantified over every order.
* C++ exceptions are embedded as `Except` values; a mutator returns the thrown
  exception (or the normal result) together with the state of the object after
  the call, since a throw does not roll anything back.
* Machine integers (`unsigned long`, `size_t`) are embedded as `Nat`: the ids
  and seat indices involved stay far below 2^64 (one insertion per increment,
  each insertion also storing a string), so wrap-around is unreachable.
-/

/-- `SEATS_PER_ROOM` from `bookingdata.hpp`. -/
def SEATS_PER_ROOM : Nat := 20

/-- `CBS_EOL` from `common.hpp`. -/
def CBS_EOL : String := "\r\n"

/-- `SeatId` from `bookingdata.hpp` (`size_t`). -/
abbrev SeatId := Nat

/-- `MovieId` from `bookingdata.hpp` (`unsigned long`). -/
abbrev MovieId := Nat

/-- `TheaterId` from `bookingdata.hpp` (`unsigned long`). -/
abbrev TheaterId := Nat

/-- `BookingResult` from `bookingdata.hpp`. -/
inductive BookingResult where
  | ACCEPTED
  | NOT_AVAILABLE
  | INVALID
deriving DecidableEq, Repr

/-- The exception types the booking core throws. -/
inductive CbsError where
  /-- `std::invalid_argument` ("Name already exists.") from `StringIdMap::add`. -/
  | invalidArgument
  /-- `std::out_of_range` from `unordered_map::at` on a missing key. -/
  | outOfRange
  /-- `std::runtime_error` ("Theater already displaying the movie"). -/
  | runtimeError
deriving DecidableEq, Repr

/-- `unordered_map::find` / `::at` on an association list in iteration order. -/
def mapFind {α β : Type} [DecidableEq α] (l : List (α × β)) (k : α) : Option β :=
  match l with
  | [] => none
  | e :: rest => if e.1 = k then some e.2 else mapFind rest k

/-- `map[k] = v` (insert-or-assign): replace the entry of `k` in place, or
append a new entry when `k` is absent. -/
def mapSet {α β : Type} [DecidableEq α] (l : List (α × β)) (k : α) (v : β) : List (α × β) :=
  match l with
  | [] => [(k, v)]
  | e :: rest => if e.1 = k then (k, v) :: rest else e :: mapSet rest k v

/-- `unordered_map::emplace`: insert only when the key is not already present. -/
def mapEmplace {α β : Type} [DecidableEq α] (l : List (α × β)) (k : α) (v : β) :
    List (α × β) :=
  match mapFind l k with
  | some _ => l
  | none => l ++ [(k, v)]

/-! ## CinemaRoom (`bookingdata.cpp`) -/

/-- The ascending list of indices of currently-available seats: the indices
`idx < seat_available.size()` with `seat_available[idx]` true, visited in
increasing order by the loop of `CinemaRoom::rebuild_cache`. -/
def availableIdxs (seat_available : List Bool) : List Nat :=
  (List.range seat_available.length).filter fun idx => seat_available.getD idx false

/-- The string built by `CinemaRoom::rebuild_cache`: the available indices in
ascending order, in decimal, joined by single commas (the `first` flag of the
loop emits a comma before every index except the first), then `CBS_EOL`. -/
def seatCacheString (seat_available : List Bool) : String :=
  String.intercalate "," ((availableIdxs seat_available).map toString) ++ CBS_EOL

/-- `CinemaRoom`: the seat cache and the availability array
(`std::array<bool, SEATS_PER_ROOM>`, embedded as a list of length
`SEATS_PER_ROOM`). -/
structure CinemaRoom where
  seat_cache : String
  seat_available : List Bool
deriving DecidableEq, Repr

/-- `CinemaRoom::CinemaRoom`: every seat available, cache rebuilt. -/
def CinemaRoom.new : CinemaRoom :=
  { seat_cache := seatCacheString (List.replicate SEATS_PER_ROOM true)
    seat_available := List.replicate SEATS_PER_ROOM true }

/-- The validation loop at the top of `CinemaRoom::book_seats`: visit the
requested seats in iteration order and return at the first offending seat —
INVALID when it is out of range, NOT_AVAILABLE when it is taken. `none` means
the loop ran to completion. -/
def checkSeats (seat_available : List Bool) : List SeatId → Option BookingResult
  | [] => none
  | seat :: rest =>
    if seat_available.length ≤ seat then some .INVALID
    else if seat_available.getD seat false = false then some .NOT_AVAILABLE
    else checkSeats seat_available rest

/-- The booking loop of `CinemaRoom::book_seats`: mark each requested seat
unavailable. -/
def markBooked (seat_available : List Bool) (seats : List SeatId) : List Bool :=
  seats.foldl (fun acc seat => acc.set seat false) seat_available

/-- `CinemaRoom::book_seats`, with `seats_to_book` the iteration order of the
requested `unordered_set`. Returns the result together with the room after the
call. -/
def CinemaRoom.book_seats (room : CinemaRoom) (seats_to_book : List SeatId) :
    BookingResult × CinemaRoom :=
  match checkSeats room.seat_available seats_to_book with
  | some r => (r, room)
  | none =>
    let avail := markBooked room.seat_available seats_to_book
    (.ACCEPTED, { seat_cache := seatCacheString avail, seat_available := avail })

/-! ## StringIdMap (`stringidmap.cpp`) -/

/-- `StringIdMap`: id counter, id-to-name map (in iteration order), name set
(in iteration order) and the cached rendered listing. -/
structure StringIdMap where
  next_id : Nat
  id_strings : List (Nat × String)
  strings : List String
  cached_list : String
deriving DecidableEq, Repr

/-- The string built by `StringIdMap::rebuild_cache`: one line
`<id>,<string><EOL>` per entry of `id_strings`, in iteration order. -/
def idStringList (id_strings : List (Nat × String)) : String :=
  id_strings.foldl (fun acc e => acc ++ toString e.1 ++ "," ++ e.2 ++ CBS_EOL) ""

/-- `StringIdMap::StringIdMap`: counter 1, empty map, empty cache. -/
def StringIdMap.new : StringIdMap :=
  { next_id := 1, id_strings := [], strings := [], cached_list := "" }

/-- One iteration of the insertion loop of `StringIdMap::add`: record the
name under `next_id`, push `next_id` onto the result, increment the counter. -/
def addStep (acc : List Nat × StringIdMap) (name : String) : List Nat × StringIdMap :=
  ( acc.1 ++ [acc.2.next_id],
    { next_id := acc.2.next_id + 1
      id_strings := acc.2.id_strings ++ [(acc.2.next_id, name)]
      strings := acc.2.strings ++ [name]
      cached_list := acc.2.cached_list } )

/-- `StringIdMap::add`, with `strings_in` the iteration order of the input
`unordered_set` (hence without duplicates in any real call). Returns the
thrown exception or the inserted ids, together with the map after the call. -/
def StringIdMap.add (m : StringIdMap) (strings_in : List String) :
    Except CbsError (List Nat) × StringIdMap :=
  if ∃ name ∈ strings_in, name ∈ m.strings then
    (.error .invalidArgument, m)
  else
    let r := strings_in.foldl addStep ([], m)
    (.ok r.1, { r.2 with cached_list := idStringList r.2.id_strings })

/-- `StringIdMap::get_id_string_list`. -/
def StringIdMap.get_id_string_list (m : StringIdMap) : String :=
  m.cached_list

/-- `StringIdMap::has_id`. -/
def StringIdMap.has_id (m : StringIdMap) (string_id : Nat) : Bool :=
  (mapFind m.id_strings string_id).isSome

/-- `StringIdMap::get_string` (`id_strings.at` throws `std::out_of_range`). -/
def StringIdMap.get_string (m : StringIdMap) (string_id : Nat) : Except CbsError String :=
  match mapFind m.id_strings string_id with
  | some s => .ok s
  | none => .error .outOfRange

/-- `StringIdMap::get_sorted_keys` (`std::set` iterates in ascending order). -/
def StringIdMap.get_sorted_keys (m : StringIdMap) : List Nat :=
  (m.id_strings.map Prod.fst).insertionSort (· ≤ ·)

/-- `StringIdMap::clear`: empty the maps and rebuild the cache; the counter is
kept. -/
def StringIdMap.clear (m : StringIdMap) : StringIdMap :=
  { next_id := m.next_id, id_strings := [], strings := [], cached_list := idStringList [] }

/-! ## BookingData (`bookingdata.cpp`) -/

/-- `BookingData`: the two name tables, the two-level room map and the
per-movie theater-listing cache, each map in iteration order. -/
structure BookingData where
  movie_list : StringIdMap
  theater_list : StringIdMap
  rooms : List (MovieId × List (TheaterId × CinemaRoom))
  theaters_per_movie_cache : List (MovieId × String)
deriving DecidableEq, Repr

/-- `BookingData::BookingData`: empty state (the constructor's
`rebuild_cache()` iterates the empty rooms map and leaves the cache empty). -/
def BookingData.new : BookingData :=
  { movie_list := StringIdMap.new
    theater_list := StringIdMap.new
    rooms := []
    theaters_per_movie_cache := [] }

/-- The loop of `BookingData::rebuild_cache(MovieId)`: one line
`<theater_id>,<theater_name><EOL>` per entry of the movie's room map;
`theater_list.get_string` throws `outOfRange` on an unknown theater id. -/
def theaterLines (theater_list : StringIdMap) :
    List (TheaterId × CinemaRoom) → Except CbsError String
  | [] => .ok ""
  | e :: rest =>
    match theater_list.get_string e.1 with
    | .error err => .error err
    | .ok name =>
      match theaterLines theater_list rest with
      | .error err => .error err
      | .ok s => .ok (toString e.1 ++ "," ++ name ++ CBS_EOL ++ s)

/-- `BookingData::rebuild_cache(MovieId)`: look up the movie title (unused but
it can throw), render the movie's theater lines and store them in
`theaters_per_movie_cache[movie_id]`. On a throw the cache entry is not
assigned. -/
def BookingData.rebuild_cache_movie (bd : BookingData) (movie_id : MovieId) :
    Except CbsError BookingData :=
  match bd.movie_list.get_string movie_id with
  | .error err => .error err
  | .ok _ =>
    match mapFind bd.rooms movie_id with
    | none => .error .outOfRange
    | some rooms_for_movie =>
      match theaterLines bd.theater_list rooms_for_movie with
      | .error err => .error err
      | .ok s =>
        .ok { bd with
              theaters_per_movie_cache := mapSet bd.theaters_per_movie_cache movie_id s }

/-- The per-id loop body of `BookingData::add_movies`: create the empty room
sub-map for the new movie id and rebuild its theater-listing cache. An earlier
exception skips the rest of the loop and keeps the state reached so far. -/
def addMovieRoom (acc : Except CbsError Unit × BookingData) (movie_id : MovieId) :
    Except CbsError Unit × BookingData :=
  match acc with
  | (.error err, bd) => (.error err, bd)
  | (.ok _, bd) =>
    let bd2 : BookingData := { bd with rooms := mapSet bd.rooms movie_id [] }
    match bd2.rebuild_cache_movie movie_id with
    | .error err => (.error err, bd2)
    | .ok bd3 => (.ok (), bd3)

/-- `BookingData::add_movies`, with `movies` the iteration order of the input
set. Returns the thrown exception or the inserted movie ids, together with the
store after the call. -/
def BookingData.add_movies (bd : BookingData) (movies : List String) :
    Except CbsError (List Nat) × BookingData :=
  match bd.movie_list.add movies with
  | (.error err, _) => (.error err, bd)
  | (.ok inserted_ids, ml) =>
    match (inserted_ids.foldl addMovieRoom (.ok (), { bd with movie_list := ml })).1 with
    | .error err =>
      (.error err, (inserted_ids.foldl addMovieRoom (.ok (), { bd with movie_list := ml })).2)
    | .ok _ =>
      (.ok inserted_ids,
       (inserted_ids.foldl addMovieRoom (.ok (), { bd with movie_list := ml })).2)

/-- `BookingData::add_theaters`. -/
def BookingData.add_theaters (bd : BookingData) (theaters : List String) :
    Except CbsError Unit × BookingData :=
  match bd.theater_list.add theaters with
  | (.error err, _) => (.error err, bd)
  | (.ok _, tl) => (.ok (), { bd with theater_list := tl })

/-- The room-creation loop of `BookingData::add_theaters_to_movie`: emplace a
fresh fully-available room for each requested theater. -/
def createRooms (rooms_for_this_movie : List (TheaterId × CinemaRoom))
    (theaters : List TheaterId) : List (TheaterId × CinemaRoom) :=
  theaters.foldl (fun acc theater_id => mapEmplace acc theater_id CinemaRoom.new)
    rooms_for_this_movie

/-- `BookingData::add_theaters_to_movie`, with `theaters` the iteration order
of the input set. The code checks only that no requested theater already shows
the movie; it then creates the rooms and rebuilds the movie's cache, where an
unknown theater id makes `get_string` throw after the rooms were created. -/
def BookingData.add_theaters_to_movie (bd : BookingData) (movie_id : MovieId)
    (theaters : List TheaterId) : Except CbsError Unit × BookingData :=
  match mapFind bd.rooms movie_id with
  | none => (.error .outOfRange, bd)
  | some rooms_for_this_movie =>
    if ∃ theater_id ∈ theaters, (mapFind rooms_for_this_movie theater_id).isSome then
      (.error .runtimeError, bd)
    else
      match ({ bd with rooms := (mapSet bd.rooms movie_id
          (createRooms rooms_for_this_movie theaters)) } :
            BookingData).rebuild_cache_movie movie_id with
      | .error err =>
        (.error err, { bd with rooms := (mapSet bd.rooms movie_id
          (createRooms rooms_for_this_movie theaters)) })
      | .ok bd3 => (.ok (), bd3)

/-- `BookingData::book_seats`: find the room (`rooms.at` twice, throwing
`outOfRange` on a missing key) and delegate to `CinemaRoom::book_seats`; only
that room's state changes. -/
def BookingData.book_seats (bd : BookingData) (movie_id : MovieId) (theater_id : TheaterId)
    (seats : List SeatId) : Except CbsError BookingResult × BookingData :=
  match mapFind bd.rooms movie_id with
  | none => (.error .outOfRange, bd)
  | some rooms_for_movie =>
    match mapFind rooms_for_movie theater_id with
    | none => (.error .outOfRange, bd)
    | some room =>
      let r := room.book_seats seats
      (.ok r.1,
       { bd with rooms := mapSet bd.rooms movie_id (mapSet rooms_for_movie theater_id r.2) })

/-- `BookingData::get_movies`. -/
def BookingData.get_movies (bd : BookingData) : String :=
  bd.movie_list.get_id_string_list

/-- `BookingData::get_sorted_movie_ids`. -/
def BookingData.get_sorted_movie_ids (bd : BookingData) : List Nat :=
  bd.movie_list.get_sorted_keys

/-- `BookingData::get_sorted_theater_ids`. -/
def BookingData.get_sorted_theater_ids (bd : BookingData) : List Nat :=
  bd.theater_list.get_sorted_keys

/-- `BookingData::get_theaters_for_movie` (`theaters_per_movie_cache.at`). -/
def BookingData.get_theaters_for_movie (bd : BookingData) (movie_id : MovieId) :
    Except CbsError String :=
  match mapFind bd.theaters_per_movie_cache movie_id with
  | some s => .ok s
  | none => .error .outOfRange

/-- `BookingData::get_available_seats`. -/
def BookingData.get_available_seats (bd : BookingData) (movie_id : MovieId)
    (theater_id : TheaterId) : Except CbsError String :=
  match mapFind bd.rooms movie_id with
  | none => .error .outOfRange
  | some rooms_for_movie =>
    match mapFind rooms_for_movie theater_id with
    | none => .error .outOfRange
    | some room => .ok room.seat_cache

/-- `BookingData::clear`: empty both name tables (keeping their counters), the
room map and the cache map; the trailing `rebuild_cache()` iterates the
now-empty room map and leaves the cache map empty. -/
def BookingData.clear (bd : BookingData) : BookingData :=
  { movie_list := bd.movie_list.clear
    theater_list := bd.theater_list.clear
    rooms := []
    theaters_per_movie_cache := [] }


/-! ## Basic lemmas about the association-list operations -/

theorem mapFind_mapSet_self {α β : Type} [DecidableEq α] (l : List (α × β)) (k : α) (v : β) :
    mapFind (mapSet l k v) k = some v := by
  induction l with
  | nil => simp [mapSet, mapFind]
  | cons e rest ih =>
    by_cases h : e.1 = k
    · simp [mapSet, h, mapFind]
    · simp [mapSet, h, mapFind, ih]

theorem mapFind_mapSet_ne {α β : Type} [DecidableEq α] (l : List (α × β)) (k k2 : α) (v : β)
    (h : k2 ≠ k) : mapFind (mapSet l k v) k2 = mapFind l k2 := by
  induction l with
  | nil => simp [mapSet, mapFind, Ne.symm h]
  | cons e rest ih =>
    by_cases he : e.1 = k
    · subst he
      simp [mapSet, mapFind, Ne.symm h]
    · simp only [mapSet, if_neg he]
      by_cases he2 : e.1 = k2
      · simp [mapFind, he2]
      · simp [mapFind, he2, ih]

theorem mapSet_keys {α β : Type} [DecidableEq α] (l : List (α × β)) (k : α) (v : β)
    (h : (mapFind l k).isSome) : (mapSet l k v).map Prod.fst = l.map Prod.fst := by
  induction l with
  | nil => simp [mapFind] at h
  | cons e rest ih =>
    by_cases he : e.1 = k
    · simp [mapSet, he]
    · simp only [mapFind, if_neg he] at h
      simp [mapSet, he, ih h]

theorem mapFind_append_left {α β : Type} [DecidableEq α] (l l2 : List (α × β)) (k : α) (v : β)
    (h : mapFind l k = some v) : mapFind (l ++ l2) k = some v := by
  induction l with
  | nil => simp [mapFind] at h
  | cons e rest ih =>
    by_cases he : e.1 = k
    · simp only [mapFind, if_pos he] at h
      simp [mapFind, he, h]
    · simp only [mapFind, if_neg he] at h
      simp [mapFind, he, ih h]

/-! ## Lemmas about the seat-validation and seat-marking loops -/

theorem checkSeats_eq_none_iff (avail : List Bool) (seats : List Nat) :
    checkSeats avail seats = none ↔
      ∀ s ∈ seats, s < avail.length ∧ avail.getD s false = true := by
  induction seats with
  | nil => simp [checkSeats]
  | cons s rest ih =>
    by_cases h1 : avail.length ≤ s
    · simp only [checkSeats, if_pos h1]
      constructor
      · intro h
        cases h
      · intro h
        exfalso
        have hs := (h s (List.mem_cons_self s rest)).1
        omega
    · by_cases h2 : avail.getD s false = false
      · simp only [checkSeats, if_neg h1, if_pos h2]
        constructor
        · intro h
          cases h
        · intro h
          exfalso
          have hs := (h s (List.mem_cons_self s rest)).2
          rw [h2] at hs
          cases hs
      · have h2t : avail.getD s false = true := by
          cases hb : avail.getD s false
          · exact absurd hb h2
          · rfl
        simp only [checkSeats, if_neg h1, if_neg h2, ih]
        constructor
        · intro h t ht
          rcases List.mem_cons.mp ht with rfl | ht2
          · exact ⟨by omega, h2t⟩
          · exact h t ht2
        · intro h t ht
          exact h t (List.mem_cons_of_mem s ht)

theorem checkSeats_ne_accepted (avail : List Bool) (seats : List Nat) (r : BookingResult)
    (h : checkSeats avail seats = some r) : r ≠ BookingResult.ACCEPTED := by
  induction seats with
  | nil => simp [checkSeats] at h
  | cons s rest ih =>
    simp only [checkSeats] at h
    by_cases h1 : avail.length ≤ s
    · rw [if_pos h1] at h
      injection h with h
      subst h
      decide
    · rw [if_neg h1] at h
      by_cases h2 : avail.getD s false = false
      · rw [if_pos h2] at h
        injection h with h
        subst h
        decide
      · rw [if_neg h2] at h
        exact ih h

theorem checkSeats_invalid_of_all_available (avail : List Bool) (seats : List Nat)
    (hex : ∃ s ∈ seats, avail.length ≤ s)
    (hav : ∀ s ∈ seats, s < avail.length → avail.getD s false = true) :
    checkSeats avail seats = some BookingResult.INVALID := by
  induction seats with
  | nil => simp at hex
  | cons s rest ih =>
    by_cases h1 : avail.length ≤ s
    · simp [checkSeats, h1]
    · have h2 : avail.getD s false = true := hav s (List.mem_cons_self s rest) (by omega)
      simp only [checkSeats, if_neg h1]
      rw [if_neg (by rw [h2]; decide)]
      apply ih
      · rcases hex with ⟨t, ht, hle⟩
        rcases List.mem_cons.mp ht with rfl | ht2
        · omega
        · exact ⟨t, ht2, hle⟩
      · intro t ht hlt
        exact hav t (List.mem_cons_of_mem s ht) hlt

theorem getD_set_self (l : List Bool) (n : Nat) :
    (l.set n false).getD n false = false := by
  by_cases h : n < l.length
  · simp [List.getD_eq_getElem?_getD, List.getElem?_set_self h]
  · have hnone : (l.set n false)[n]? = none :=
      List.getElem?_eq_none (by simpa using Nat.le_of_not_lt h)
    simp [List.getD_eq_getElem?_getD, hnone]

theorem getD_set_ne (l : List Bool) (n i : Nat) (v : Bool) (h : i ≠ n) :
    (l.set n v).getD i false = l.getD i false := by
  simp [List.getD_eq_getElem?_getD, List.getElem?_set_ne (Ne.symm h)]

theorem markBooked_getD (avail : List Bool) (seats : List Nat) (i : Nat) :
    (markBooked avail seats).getD i false =
      if i ∈ seats then false else avail.getD i false := by
  induction seats generalizing avail with
  | nil => simp [markBooked]
  | cons s rest ih =>
    show (markBooked (avail.set s false) rest).getD i false = _
    rw [ih]
    by_cases hmem : i ∈ rest
    · rw [if_pos hmem, if_pos (List.mem_cons_of_mem s hmem)]
    · by_cases his : i = s
      · subst his
        rw [if_neg hmem, if_pos (List.mem_cons_self i rest), getD_set_self]
      · have hnotin : i ∉ s :: rest := by
          intro hc
          rcases List.mem_cons.mp hc with hc1 | hc2
          · exact his hc1
          · exact hmem hc2
        rw [if_neg hmem, if_neg hnotin, getD_set_ne avail s i false his]

theorem markBooked_length (avail : List Bool) (seats : List Nat) :
    (markBooked avail seats).length = avail.length := by
  induction seats generalizing avail with
  | nil => rfl
  | cons s rest ih =>
    show (markBooked (avail.set s false) rest).length = avail.length
    rw [ih, List.length_set]

/-! ## Claim C2: INVALID versus NOT_AVAILABLE precedence -/

/-- C2, as stated, is false: the validation loop of `CinemaRoom::book_seats`
returns at the first offending seat in the set's iteration order, so a
requested set that contains both an already-taken seat and an out-of-range
index (≥ `SEATS_PER_ROOM`) reports NOT_AVAILABLE, not INVALID, when the taken
seat is visited first. Concretely: after booking seat 0 in a fresh room, the
request iterated as `[0, 25]` contains `25 ≥ SEATS_PER_ROOM` yet returns
NOT_AVAILABLE. -/
theorem C2_counterexample :
    SEATS_PER_ROOM ≤ 25 ∧ 25 ∈ [0, 25] ∧
      ((CinemaRoom.new.book_seats [0]).2.book_seats [0, 25]).1 =
        BookingResult.NOT_AVAILABLE := by
  refine ⟨by decide, by decide, ?_⟩
  decide

/-- C2 (amended): for every room (with its `SEATS_PER_ROOM`-entry availability
array) and every requested set containing an index ≥ `SEATS_PER_ROOM`, the
booking never succeeds and the room is completely unchanged; the result is
INVALID whenever every requested in-range seat is currently available (in
particular whenever no other offending seat could be reported), but which of
INVALID and NOT_AVAILABLE is reported otherwise depends on the iteration order
of the requested set. -/
theorem C2_amended (room : CinemaRoom) (S : List Nat)
    (hlen : room.seat_available.length = SEATS_PER_ROOM)
    (hex : ∃ s ∈ S, SEATS_PER_ROOM ≤ s) :
    (room.book_seats S).1 ≠ BookingResult.ACCEPTED ∧
      (room.book_seats S).2 = room ∧
      ((∀ s ∈ S, s < SEATS_PER_ROOM → room.seat_available.getD s false = true) →
        (room.book_seats S).1 = BookingResult.INVALID) := by
  have hex2 : ∃ s ∈ S, room.seat_available.length ≤ s := by rw [hlen]; exact hex
  have hnone : checkSeats room.seat_available S ≠ none := by
    intro h
    rcases hex2 with ⟨s, hs, hle⟩
    have hlt := ((checkSeats_eq_none_iff room.seat_available S).mp h s hs).1
    omega
  rcases hsome : checkSeats room.seat_available S with _ | r
  · exact absurd hsome hnone
  · have hbook : room.book_seats S = (r, room) := by
      unfold CinemaRoom.book_seats
      rw [hsome]
    rw [hbook]
    refine ⟨checkSeats_ne_accepted room.seat_available S r hsome, rfl, ?_⟩
    intro hall
    have hinv : checkSeats room.seat_available S = some BookingResult.INVALID := by
      apply checkSeats_invalid_of_all_available room.seat_available S hex2
      intro t ht hlt
      exact hall t ht (by omega)
    rw [hsome] at hinv
    simpa using hinv

/-- Witness for `C2_amended` at the fresh room and the request `[25]`. -/
theorem C2_amended_witness :
    (CinemaRoom.new.book_seats [25]).1 ≠ BookingResult.ACCEPTED ∧
      (CinemaRoom.new.book_seats [25]).2 = CinemaRoom.new ∧
      ((∀ s ∈ [25], s < SEATS_PER_ROOM → CinemaRoom.new.seat_available.getD s false = true) →
        (CinemaRoom.new.book_seats [25]).1 = BookingResult.INVALID) :=
  C2_amended CinemaRoom.new [25] (by decide) ⟨25, by decide, by decide⟩

/-! ## Claim C3: effect of book on the availability state -/

/-- C3: for every room state and requested seat set, if `book_seats` returns
ACCEPTED the available-seat set afterwards is the previous one minus the
requested set (stated pointwise); on any other result the room is completely
unchanged; and on the empty request the result is ACCEPTED with the
availability state unchanged. -/
theorem C3_book_state (room : CinemaRoom) (S : List Nat) :
    ((room.book_seats S).1 = BookingResult.ACCEPTED →
      ∀ i : Nat, (room.book_seats S).2.seat_available.getD i false =
        (if i ∈ S then false else room.seat_available.getD i false)) ∧
    ((room.book_seats S).1 ≠ BookingResult.ACCEPTED → (room.book_seats S).2 = room) ∧
    (S = [] → (room.book_seats S).1 = BookingResult.ACCEPTED ∧
      (room.book_seats S).2.seat_available = room.seat_available) := by
  rcases hsome : checkSeats room.seat_available S with _ | r
  · have hbook : room.book_seats S =
        (BookingResult.ACCEPTED,
          { seat_cache := seatCacheString (markBooked room.seat_available S),
            seat_available := markBooked room.seat_available S }) := by
      unfold CinemaRoom.book_seats
      rw [hsome]
    rw [hbook]
    refine ⟨?_, ?_, ?_⟩
    · intro _ i
      exact markBooked_getD room.seat_available S i
    · intro h
      exact absurd rfl h
    · intro hS
      subst hS
      exact ⟨rfl, rfl⟩
  · have hbook : room.book_seats S = (r, room) := by
      unfold CinemaRoom.book_seats
      rw [hsome]
    rw [hbook]
    refine ⟨?_, fun _ => rfl, ?_⟩
    · intro hacc
      exact absurd hacc (checkSeats_ne_accepted room.seat_available S r hsome)
    · intro hS
      subst hS
      cases hsome

/-- Witness for `C3_book_state` at the fresh room and the request `[0, 1]`. -/
theorem C3_book_state_witness :
    (CinemaRoom.new.book_seats [0, 1]).2.seat_available.getD 0 false = false ∧
      (CinemaRoom.new.book_seats [0, 1]).2.seat_available.getD 2 false = true := by
  have h := (C3_book_state CinemaRoom.new [0, 1]).1 (by decide)
  refine ⟨?_, ?_⟩
  · rw [h 0]
    decide
  · rw [h 2]
    decide

/-! ## Lemmas about the insertion loop of StringIdMap::add -/

/-- The entries appended to `id_strings` by the insertion loop: the input
names numbered consecutively starting at `n`. -/
def numberFrom (n : Nat) : List String → List (Nat × String)
  | [] => []
  | name :: rest => (n, name) :: numberFrom (n + 1) rest

theorem numberFrom_map_fst (n : Nat) (names : List String) :
    (numberFrom n names).map Prod.fst = (List.range names.length).map (fun i => n + i) := by
  induction names generalizing n with
  | nil => simp [numberFrom]
  | cons name rest ih =>
    simp only [numberFrom, List.map_cons, List.length_cons, List.range_succ_eq_map,
      List.map_map, Nat.add_zero, ih]
    refine congrArg (fun l => n :: l) ?_
    apply List.map_congr_left
    intro a ha
    simp only [Function.comp_apply]
    omega

theorem addStep_eq (ids : List Nat) (m : StringIdMap) (name : String) :
    addStep (ids, m) name =
      (ids ++ [m.next_id],
       { next_id := m.next_id + 1
         id_strings := m.id_strings ++ [(m.next_id, name)]
         strings := m.strings ++ [name]
         cached_list := m.cached_list }) := rfl

theorem foldl_addStep_fst (names : List String) (ids : List Nat) (m : StringIdMap) :
    (names.foldl addStep (ids, m)).1 = ids ++ (numberFrom m.next_id names).map Prod.fst := by
  induction names generalizing ids m with
  | nil => simp [numberFrom]
  | cons name rest ih =>
    rw [List.foldl_cons, addStep_eq, ih]
    simp [numberFrom, List.append_assoc]

theorem foldl_addStep_next_id (names : List String) (ids : List Nat) (m : StringIdMap) :
    (names.foldl addStep (ids, m)).2.next_id = m.next_id + names.length := by
  induction names generalizing ids m with
  | nil => rfl
  | cons name rest ih =>
    rw [List.foldl_cons, addStep_eq, ih]
    show m.next_id + 1 + rest.length = m.next_id + (rest.length + 1)
    omega

theorem foldl_addStep_id_strings (names : List String) (ids : List Nat) (m : StringIdMap) :
    (names.foldl addStep (ids, m)).2.id_strings = m.id_strings ++ numberFrom m.next_id names := by
  induction names generalizing ids m with
  | nil => simp [numberFrom]
  | cons name rest ih =>
    rw [List.foldl_cons, addStep_eq, ih]
    simp [numberFrom, List.append_assoc]

theorem foldl_addStep_strings (names : List String) (ids : List Nat) (m : StringIdMap) :
    (names.foldl addStep (ids, m)).2.strings = m.strings ++ names := by
  induction names generalizing ids m with
  | nil => simp
  | cons name rest ih =>
    rw [List.foldl_cons, addStep_eq, ih]
    simp [List.append_assoc]

theorem foldl_addStep_cached_list (names : List String) (ids : List Nat) (m : StringIdMap) :
    (names.foldl addStep (ids, m)).2.cached_list = m.cached_list := by
  induction names generalizing ids m with
  | nil => rfl
  | cons name rest ih =>
    rw [List.foldl_cons, addStep_eq, ih]

/-- `StringIdMap::add` on a batch containing an already-present name: the
pre-check loop throws before any mutation, so the map is returned unchanged. -/
theorem StringIdMap.add_dup (m : StringIdMap) (names : List String)
    (h : ∃ name ∈ names, name ∈ m.strings) :
    m.add names = (.error .invalidArgument, m) := by
  unfold StringIdMap.add
  rw [if_pos h]

/-- `StringIdMap::add` on a batch of fresh names: the names are numbered
consecutively from `next_id`, the counter advances by the batch size and the
cache is rebuilt from the extended map. -/
theorem StringIdMap.add_ok (m : StringIdMap) (names : List String)
    (h : ¬ ∃ name ∈ names, name ∈ m.strings) :
    m.add names =
      (.ok ((numberFrom m.next_id names).map Prod.fst),
       { next_id := m.next_id + names.length
         id_strings := m.id_strings ++ numberFrom m.next_id names
         strings := m.strings ++ names
         cached_list := idStringList (m.id_strings ++ numberFrom m.next_id names) }) := by
  unfold StringIdMap.add
  rw [if_neg h]
  show (Except.ok (names.foldl addStep ([], m)).1,
      ({ next_id := (names.foldl addStep ([], m)).2.next_id
         id_strings := (names.foldl addStep ([], m)).2.id_strings
         strings := (names.foldl addStep ([], m)).2.strings
         cached_list := idStringList (names.foldl addStep ([], m)).2.id_strings } :
        StringIdMap)) = _
  rw [foldl_addStep_fst, foldl_addStep_next_id, foldl_addStep_id_strings, foldl_addStep_strings]
  simp

theorem pairwise_lt_range_add (n k : Nat) :
    List.Pairwise (· < ·) ((List.range k).map (fun i => n + i)) := by
  refine List.Pairwise.map _ ?_ (List.pairwise_lt_range k)
  intro a b hab
  omega

theorem mem_range_add (n k a : Nat) (h : a ∈ (List.range k).map (fun i => n + i)) :
    n ≤ a ∧ a < n + k := by
  rcases List.mem_map.mp h with ⟨i, hi, rfl⟩
  have := List.mem_range.mp hi
  omega

/-! ## Claim C4: atomicity of a duplicate batch add -/

/-- C4: a batch add in which at least one name is already present fails with
`std::invalid_argument` (the DuplicateName failure) and the table after the
call is the table before the call — no id allocated, no mapping recorded,
counter unchanged, cache unchanged. -/
theorem C4_add_duplicate_atomic (m : StringIdMap) (names : List String)
    (h : ∃ name ∈ names, name ∈ m.strings) :
    (m.add names).1 = .error .invalidArgument ∧ (m.add names).2 = m := by
  rw [StringIdMap.add_dup m names h]
  exact ⟨rfl, rfl⟩

/-- Witness for `C4_add_duplicate_atomic`: after adding "A", adding the batch
["A", "B"] fails and keeps the table identical. -/
theorem C4_add_duplicate_atomic_witness :
    ((StringIdMap.new.add ["A"]).2.add ["A", "B"]).1 = .error .invalidArgument ∧
      ((StringIdMap.new.add ["A"]).2.add ["A", "B"]).2 = (StringIdMap.new.add ["A"]).2 :=
  C4_add_duplicate_atomic ((StringIdMap.new.add ["A"]).2) ["A", "B"]
    ⟨"A", by decide, by decide⟩

/-! ## Claim C9: ids of a successful batch add are consecutive from the counter -/

/-- C9: a successful add of k fresh names to a table whose counter is
`next_id` returns exactly the list `next_id, next_id + 1, ..., next_id + k - 1`,
which has k elements and is strictly increasing by position. -/
theorem C9_consecutive_ids (m : StringIdMap) (names : List String)
    (h : ¬ ∃ name ∈ names, name ∈ m.strings) :
    (m.add names).1 = .ok ((List.range names.length).map (fun i => m.next_id + i)) ∧
      List.Pairwise (· < ·) ((List.range names.length).map (fun i => m.next_id + i)) ∧
      ((List.range names.length).map (fun i => m.next_id + i)).length = names.length := by
  refine ⟨?_, pairwise_lt_range_add m.next_id names.length, by simp⟩
  rw [StringIdMap.add_ok m names h, numberFrom_map_fst]

/-- Witness for `C9_consecutive_ids`: adding two names to a fresh table
returns ids [1, 2]. -/
theorem C9_consecutive_ids_witness :
    (StringIdMap.new.add ["A", "B"]).1 = .ok [1, 2] := by
  have h := C9_consecutive_ids StringIdMap.new ["A", "B"] (by decide)
  rw [h.1]
  rfl

/-! ## Claim C5: issued ids over arbitrary add/clear sequences -/

/-- The operations of a NameTable covered by claim C5: a batch add (which may
succeed or throw) and `clear`. -/
inductive TableOp where
  | add (names : List String)
  | clear

/-- The ids returned by one `add` call; a throwing call returns none. -/
def okIds : Except CbsError (List Nat) → List Nat
  | .ok ids => ids
  | .error _ => []

/-- Run a sequence of operations on a `StringIdMap`, collecting every id
issued by the successful adds, in order of issue. -/
def runTableOps (m : StringIdMap) : List TableOp → StringIdMap × List Nat
  | [] => (m, [])
  | TableOp.add names :: rest =>
    let r := runTableOps (m.add names).2 rest
    (r.1, okIds (m.add names).1 ++ r.2)
  | TableOp.clear :: rest => runTableOps m.clear rest

/-- Every id issued during a run is at least the starting counter value, and
the issued ids are strictly increasing in order of issue. -/
theorem runTableOps_ids_bounds (m : StringIdMap) (ops : List TableOp) :
    List.Pairwise (· < ·) (runTableOps m ops).2 ∧
      ∀ i ∈ (runTableOps m ops).2, m.next_id ≤ i := by
  induction ops generalizing m with
  | nil => simp [runTableOps]
  | cons op rest ih =>
    cases op with
    | clear =>
      show List.Pairwise (· < ·) (runTableOps m.clear rest).2 ∧
        ∀ i ∈ (runTableOps m.clear rest).2, m.next_id ≤ i
      have h := ih m.clear
      exact ⟨h.1, fun i hi => h.2 i hi⟩
    | add names =>
      show List.Pairwise (· < ·) (okIds (m.add names).1 ++ (runTableOps (m.add names).2 rest).2) ∧
        ∀ i ∈ okIds (m.add names).1 ++ (runTableOps (m.add names).2 rest).2, m.next_id ≤ i
      by_cases hdup : ∃ name ∈ names, name ∈ m.strings
      · rw [StringIdMap.add_dup m names hdup]
        have h := ih m
        show List.Pairwise (· < ·) ([] ++ (runTableOps m rest).2) ∧
          ∀ i ∈ [] ++ (runTableOps m rest).2, m.next_id ≤ i
        simpa using h
      · rw [StringIdMap.add_ok m names hdup, numberFrom_map_fst]
        have h := ih { next_id := m.next_id + names.length
                       id_strings := m.id_strings ++ numberFrom m.next_id names
                       strings := m.strings ++ names
                       cached_list := idStringList (m.id_strings ++ numberFrom m.next_id names) }
        simp only at h
        constructor
        · rw [List.pairwise_append]
          refine ⟨pairwise_lt_range_add m.next_id names.length, h.1, ?_⟩
          intro a ha b hb
          have ha2 := (mem_range_add m.next_id names.length a ha).2
          have hb2 := h.2 b hb
          omega
        · intro i hi
          rcases List.mem_append.mp hi with hi1 | hi2
          · exact (mem_range_add m.next_id names.length i hi1).1
          · have := h.2 i hi2
            omega

/-- C5: over every sequence of add/clear operations on a fresh NameTable, the
ids issued by the successful adds are strictly increasing in order of issue —
hence pairwise distinct, and every id issued after a `clear` (which does not
reset the counter) is strictly greater than every id issued before it — and
id 0 is never assigned. -/
theorem C5_ids_unique_monotone (ops : List TableOp) :
    List.Pairwise (· < ·) (runTableOps StringIdMap.new ops).2 ∧
      (runTableOps StringIdMap.new ops).2.Nodup ∧
      ∀ i ∈ (runTableOps StringIdMap.new ops).2, 1 ≤ i := by
  have h := runTableOps_ids_bounds StringIdMap.new ops
  refine ⟨h.1, ?_, fun i hi => h.2 i hi⟩
  exact h.1.imp (fun hlt => Nat.ne_of_lt hlt)

/-! ## Claim C6: seat-availability listing format -/

/-- C6: the listing built by the seat-cache rebuild is a single line holding
exactly the currently-available indices, in strictly ascending order, in
decimal, joined by single commas and terminated by CR LF; with no available
seat it is CR LF alone; and a fresh room (all `SEATS_PER_ROOM` seats
available) renders as `0,1,...,19` followed by CR LF. -/
theorem C6_seat_listing_format :
    (∀ avail : List Bool,
      List.Pairwise (· < ·) (availableIdxs avail) ∧
      (∀ i : Nat, i ∈ availableIdxs avail ↔ i < avail.length ∧ avail.getD i false = true) ∧
      seatCacheString avail =
        String.intercalate "," ((availableIdxs avail).map toString) ++ CBS_EOL) ∧
    (∀ avail : List Bool, availableIdxs avail = [] → seatCacheString avail = CBS_EOL) ∧
    CinemaRoom.new.seat_cache =
      "0,1,2,3,4,5,6,7,8,9,10,11,12,13,14,15,16,17,18,19\r\n" := by
  refine ⟨?_, ?_, by decide⟩
  · intro avail
    refine ⟨?_, ?_, rfl⟩
    · exact List.Pairwise.sublist (List.filter_sublist _) (List.pairwise_lt_range avail.length)
    · intro i
      simp [availableIdxs, List.mem_filter, List.mem_range]
  · intro avail h
    rw [seatCacheString, h]
    rfl

/-! ## Claim C8: idempotence of clear and emptiness afterwards -/

/-- C8: clearing twice yields exactly the state of clearing once, and after a
clear the movie listing is the empty string, the sorted id sets are empty, and
the per-movie theater listing and per-room seat listing fail for every id
(nothing remains to list, so every reachable listing is empty-equivalent). -/
theorem C8_clear_idempotent (bd : BookingData) :
    bd.clear.clear = bd.clear ∧
      bd.clear.get_movies = "" ∧
      bd.clear.get_sorted_movie_ids = [] ∧
      bd.clear.get_sorted_theater_ids = [] ∧
      (∀ movie_id : Nat, bd.clear.get_theaters_for_movie movie_id = .error .outOfRange) ∧
      (∀ movie_id theater_id : Nat,
        bd.clear.get_available_seats movie_id theater_id = .error .outOfRange) :=
  ⟨rfl, rfl, rfl, rfl, fun _ => rfl, fun _ _ => rfl⟩

/-! ## Claim C1: assigning an unknown theater id to a movie -/

/-- C1 concerns a genuine defect: `BookingData::add_theaters_to_movie` never
validates the requested theater ids against the theater table. With movie "M"
(id 1) present and an empty theater table, `add_theaters_to_movie 1 {7}`
first creates the room for theater 7 and only then throws `std::out_of_range`
(an UnknownId failure, not a pre-checked UnknownTheater) from
`theater_list.get_string` inside the cache rebuild — so the call fails *after*
mutating the store, contradicting the header's documented strong exception
safety: `rooms[1]` now holds a fresh room for theater 7 while
`theaters_per_movie_cache[1]` still holds the stale listing. -/
theorem C1_unknown_theater_bug :
    (((BookingData.new.add_movies ["M"]).2.add_theaters_to_movie 1 [7]).1 =
      .error .outOfRange) ∧
    mapFind ((BookingData.new.add_movies ["M"]).2).rooms 1 = some [] ∧
    mapFind (((BookingData.new.add_movies ["M"]).2.add_theaters_to_movie 1 [7]).2).rooms 1 =
      some [(7, CinemaRoom.new)] ∧
    (((BookingData.new.add_movies ["M"]).2.add_theaters_to_movie 1 [7]).2).theaters_per_movie_cache
      = ((BookingData.new.add_movies ["M"]).2).theaters_per_movie_cache :=
  ⟨rfl, rfl, rfl, rfl⟩

/-! ## Claim C10: frame property of store-level book_seats -/

theorem map_mapSet_congr {α β γ : Type} [DecidableEq α] (l : List (α × β)) (k : α) (v w : β)
    (f : β → γ) (hk : mapFind l k = some w) (hfv : f v = f w) :
    (mapSet l k v).map (fun e => (e.1, f e.2)) = l.map (fun e => (e.1, f e.2)) := by
  induction l with
  | nil => simp [mapFind] at hk
  | cons e rest ih =>
    by_cases he : e.1 = k
    · simp only [mapFind, if_pos he] at hk
      injection hk with hk
      simp only [mapSet, if_pos he, List.map_cons]
      rw [he, hfv, hk]
    · simp only [mapFind, if_neg he] at hk
      simp only [mapSet, if_neg he, List.map_cons, ih hk]

/-- `BookingData::book_seats` when the movie has no room sub-map: `rooms.at`
throws and nothing changes. -/
theorem book_seats_eq_of_no_movie (bd : BookingData) (movie_id theater_id : Nat)
    (seats : List Nat) (hm : mapFind bd.rooms movie_id = none) :
    bd.book_seats movie_id theater_id seats = (.error .outOfRange, bd) := by
  simp only [BookingData.book_seats, hm]

/-- `BookingData::book_seats` when the theater has no room for the movie:
the inner `at` throws and nothing changes. -/
theorem book_seats_eq_of_no_theater (bd : BookingData) (movie_id theater_id : Nat)
    (seats : List Nat) (rfm : List (TheaterId × CinemaRoom))
    (hm : mapFind bd.rooms movie_id = some rfm) (ht : mapFind rfm theater_id = none) :
    bd.book_seats movie_id theater_id seats = (.error .outOfRange, bd) := by
  simp only [BookingData.book_seats, hm, ht]

/-- `BookingData::book_seats` when the room exists: delegate to the room and
store its new state back in place. -/
theorem book_seats_eq_of_room (bd : BookingData) (movie_id theater_id : Nat)
    (seats : List Nat) (rfm : List (TheaterId × CinemaRoom)) (room : CinemaRoom)
    (hm : mapFind bd.rooms movie_id = some rfm) (ht : mapFind rfm theater_id = some room) :
    bd.book_seats movie_id theater_id seats =
      (.ok (room.book_seats seats).1,
       { bd with
         rooms := (mapSet bd.rooms movie_id (mapSet rfm theater_id (room.book_seats seats).2)) })
      := by
  simp only [BookingData.book_seats, hm, ht]

/-- C10: whatever `BookingData::book_seats(m, t, S)` returns (a booking result
or the UnknownRoom failure), the movie table, the theater table, the per-movie
theater-listing cache and the key structure of the two-level room map are
unchanged, and every room other than `(m, t)` is unchanged. -/
theorem C10_book_seats_frame (bd : BookingData) (movie_id theater_id : Nat)
    (seats : List Nat) :
    ((bd.book_seats movie_id theater_id seats).2.movie_list = bd.movie_list) ∧
    ((bd.book_seats movie_id theater_id seats).2.theater_list = bd.theater_list) ∧
    ((bd.book_seats movie_id theater_id seats).2.theaters_per_movie_cache =
      bd.theaters_per_movie_cache) ∧
    ((bd.book_seats movie_id theater_id seats).2.rooms.map
        (fun e => (e.1, e.2.map Prod.fst)) =
      bd.rooms.map (fun e => (e.1, e.2.map Prod.fst))) ∧
    (∀ m2 t2 : Nat, m2 ≠ movie_id ∨ t2 ≠ theater_id →
      ((mapFind (bd.book_seats movie_id theater_id seats).2.rooms m2).bind
          (fun rfm2 => mapFind rfm2 t2) =
        (mapFind bd.rooms m2).bind (fun rfm2 => mapFind rfm2 t2))) := by
  rcases hm : mapFind bd.rooms movie_id with _ | rfm
  · rw [book_seats_eq_of_no_movie bd movie_id theater_id seats hm]
    exact ⟨rfl, rfl, rfl, rfl, fun m2 t2 h => rfl⟩
  · rcases ht : mapFind rfm theater_id with _ | room
    · rw [book_seats_eq_of_no_theater bd movie_id theater_id seats rfm hm ht]
      exact ⟨rfl, rfl, rfl, rfl, fun m2 t2 h => rfl⟩
    · rw [book_seats_eq_of_room bd movie_id theater_id seats rfm room hm ht]
      refine ⟨rfl, rfl, rfl, ?_, ?_⟩
      · exact map_mapSet_congr bd.rooms movie_id
          (mapSet rfm theater_id (room.book_seats seats).2) rfm
          (fun rooms_for_movie => rooms_for_movie.map Prod.fst) hm
          (mapSet_keys rfm theater_id (room.book_seats seats).2 (by rw [ht]; rfl))
      · intro m2 t2 hne
        by_cases hm2 : m2 = movie_id
        · subst hm2
          rcases hne with hne | hne
          · exact absurd rfl hne
          · show (mapFind (mapSet bd.rooms m2
                (mapSet rfm theater_id (room.book_seats seats).2)) m2).bind
                  (fun rfm2 => mapFind rfm2 t2) =
              (mapFind bd.rooms m2).bind (fun rfm2 => mapFind rfm2 t2)
            rw [mapFind_mapSet_self, hm]
            show mapFind (mapSet rfm theater_id (room.book_seats seats).2) t2 =
              mapFind rfm t2
            exact mapFind_mapSet_ne rfm theater_id t2 _ hne
        · show (mapFind (mapSet bd.rooms movie_id
              (mapSet rfm theater_id (room.book_seats seats).2)) m2).bind
                (fun rfm2 => mapFind rfm2 t2) =
            (mapFind bd.rooms m2).bind (fun rfm2 => mapFind rfm2 t2)
          rw [mapFind_mapSet_ne bd.rooms movie_id m2 _ hm2]

/-- A concrete populated store: movie "M" (id 1), theater "T" (id 1), and the
room for the pair (1, 1). -/
def sampleStore : BookingData :=
  ((((BookingData.new.add_movies ["M"]).2).add_theaters ["T"]).2.add_theaters_to_movie 1 [1]).2

/-- Witness for `C10_book_seats_frame`: booking seat 0 of room (1, 1) leaves
the theater table and the (absent) room (2, 5) untouched. -/
theorem C10_book_seats_frame_witness :
    (sampleStore.book_seats 1 1 [0]).2.theater_list = sampleStore.theater_list ∧
      ((mapFind (sampleStore.book_seats 1 1 [0]).2.rooms 2).bind (fun rfm => mapFind rfm 5) =
        (mapFind sampleStore.rooms 2).bind (fun rfm => mapFind rfm 5)) := by
  have h := C10_book_seats_frame sampleStore 1 1 [0]
  exact ⟨h.2.1, h.2.2.2.2 2 5 (Or.inl (by decide))⟩

/-- Witness for `C5_ids_unique_monotone`: the id issued after a clear (2) is
covered by the lower bound. -/
theorem C5_ids_unique_monotone_witness :
    1 ≤ (runTableOps StringIdMap.new
      [TableOp.add ["A"], TableOp.clear, TableOp.add ["B"]]).2.getD 1 0 := by
  have h := C5_ids_unique_monotone [TableOp.add ["A"], TableOp.clear, TableOp.add ["B"]]
  exact h.2.2 _ (by decide)

/-- Witness for `C6_seat_listing_format`: a room with no available seat
renders as CR LF alone. -/
theorem C6_seat_listing_format_witness :
    seatCacheString [false, false] = CBS_EOL :=
  C6_seat_listing_format.2.1 [false, false] (by decide)

/-! ## Claim C7: cache agreement -/

/-- The cached listing of a `StringIdMap` agrees with a from-scratch
recomputation from its contents. -/
def tableCacheOk (m : StringIdMap) : Prop :=
  m.cached_list = idStringList m.id_strings

/-- The cached listing of a room agrees with a from-scratch recomputation from
its availability array. -/
def roomCacheOk (room : CinemaRoom) : Prop :=
  room.seat_cache = seatCacheString room.seat_available

/-- Every cache of a `BookingData` agrees with a from-scratch recomputation:
both name-table caches, every room cache, and for every movie in `rooms` the
theater listing renders successfully to exactly the cached entry. -/
def storeCacheOk (bd : BookingData) : Prop :=
  tableCacheOk bd.movie_list ∧ tableCacheOk bd.theater_list ∧
  (∀ e ∈ bd.rooms, ∀ e2 ∈ e.2, roomCacheOk e2.2) ∧
  (∀ movie_id rfm, mapFind bd.rooms movie_id = some rfm →
    ∃ s, theaterLines bd.theater_list rfm = .ok s ∧
      mapFind bd.theaters_per_movie_cache movie_id = some s)

theorem tableCacheOk_new : tableCacheOk StringIdMap.new := rfl

theorem tableCacheOk_clear (m : StringIdMap) : tableCacheOk m.clear := rfl

theorem tableCacheOk_add (m : StringIdMap) (names : List String) (h : tableCacheOk m) :
    tableCacheOk (m.add names).2 := by
  by_cases hdup : ∃ name ∈ names, name ∈ m.strings
  · rw [StringIdMap.add_dup m names hdup]
    exact h
  · rw [StringIdMap.add_ok m names hdup]
    rfl

theorem roomCacheOk_new : roomCacheOk CinemaRoom.new := rfl

theorem roomCacheOk_book (room : CinemaRoom) (S : List Nat) (h : roomCacheOk room) :
    roomCacheOk (room.book_seats S).2 := by
  rcases hsome : checkSeats room.seat_available S with _ | r
  · simp only [CinemaRoom.book_seats, hsome]
    rfl
  · simp only [CinemaRoom.book_seats, hsome]
    exact h

theorem get_string_eq_ok (m : StringIdMap) (tid : Nat) (s : String) :
    m.get_string tid = .ok s ↔ mapFind m.id_strings tid = some s := by
  unfold StringIdMap.get_string
  rcases h : mapFind m.id_strings tid with _ | v
  · simp
  · simp

theorem mapFind_mem {α β : Type} [DecidableEq α] (l : List (α × β)) (k : α) (v : β)
    (h : mapFind l k = some v) : (k, v) ∈ l := by
  induction l with
  | nil => simp [mapFind] at h
  | cons e rest ih =>
    by_cases he : e.1 = k
    · simp only [mapFind, if_pos he] at h
      injection h with h
      have hkv : (k, v) = e := by rw [← he, ← h]
      rw [hkv]
      exact List.mem_cons_self e rest
    · simp only [mapFind, if_neg he] at h
      exact List.mem_cons_of_mem e (ih h)

theorem mem_mapSet {α β : Type} [DecidableEq α] (l : List (α × β)) (k : α) (v : β)
    (e : α × β) (h : e ∈ mapSet l k v) : e = (k, v) ∨ e ∈ l := by
  induction l with
  | nil =>
    simp only [mapSet] at h
    rcases List.mem_singleton.mp h with h1
    exact Or.inl h1
  | cons e2 rest ih =>
    by_cases he : e2.1 = k
    · simp only [mapSet, if_pos he] at h
      rcases List.mem_cons.mp h with h1 | h1
      · exact Or.inl h1
      · exact Or.inr (List.mem_cons_of_mem e2 h1)
    · simp only [mapSet, if_neg he] at h
      rcases List.mem_cons.mp h with h1 | h1
      · exact Or.inr (h1 ▸ List.mem_cons_self e2 rest)
      · rcases ih h1 with h2 | h2
        · exact Or.inl h2
        · exact Or.inr (List.mem_cons_of_mem e2 h2)

theorem mem_foldl_emplace (theaters : List Nat) (rfm : List (Nat × CinemaRoom))
    (e : Nat × CinemaRoom)
    (h : e ∈ theaters.foldl (fun acc tid => mapEmplace acc tid CinemaRoom.new) rfm) :
    e ∈ rfm ∨ e.2 = CinemaRoom.new := by
  induction theaters generalizing rfm with
  | nil => exact Or.inl h
  | cons t rest ih =>
    rcases ih (mapEmplace rfm t CinemaRoom.new) h with h1 | h1
    · unfold mapEmplace at h1
      rcases hf : mapFind rfm t with _ | v
      · rw [hf] at h1
        rcases List.mem_append.mp h1 with h2 | h2
        · exact Or.inl h2
        · refine Or.inr ?_
          rw [List.mem_singleton.mp h2]
      · rw [hf] at h1
        exact Or.inl h1
    · exact Or.inr h1

theorem theaterLines_mono (tl tl2 : StringIdMap)
    (hmono : ∀ tid s, mapFind tl.id_strings tid = some s → mapFind tl2.id_strings tid = some s)
    (rfm : List (TheaterId × CinemaRoom)) (s : String)
    (h : theaterLines tl rfm = .ok s) : theaterLines tl2 rfm = .ok s := by
  induction rfm generalizing s with
  | nil => exact h
  | cons e rest ih =>
    cases hg : StringIdMap.get_string tl e.1 with
    | error err =>
      simp only [theaterLines, hg] at h
      cases h
    | ok name =>
      simp only [theaterLines, hg] at h
      cases hrest : theaterLines tl rest with
      | error err2 =>
        rw [hrest] at h
        cases h
      | ok s2 =>
        rw [hrest] at h
        have hg2 : tl2.get_string e.1 = .ok name := by
          rw [get_string_eq_ok] at hg ⊢
          exact hmono e.1 name hg
        have hr2 := ih s2 hrest
        simp only [theaterLines, hg2, hr2]
        exact h

theorem theaterLines_congr_keys (tl : StringIdMap) (rfm rfm2 : List (TheaterId × CinemaRoom))
    (h : rfm.map Prod.fst = rfm2.map Prod.fst) :
    theaterLines tl rfm = theaterLines tl rfm2 := by
  induction rfm generalizing rfm2 with
  | nil =>
    cases rfm2 with
    | nil => rfl
    | cons e2 rest2 => simp at h
  | cons e rest ih =>
    cases rfm2 with
    | nil => simp at h
    | cons e2 rest2 =>
      simp only [List.map_cons, List.cons.injEq] at h
      simp only [theaterLines, h.1, ih rest2 h.2]

theorem rebuild_cache_movie_ok_inv (bd : BookingData) (movie_id : Nat) (bd2 : BookingData)
    (h : bd.rebuild_cache_movie movie_id = .ok bd2) :
    ∃ rfm s, mapFind bd.rooms movie_id = some rfm ∧
      theaterLines bd.theater_list rfm = .ok s ∧
      bd2 = { bd with
        theaters_per_movie_cache := (mapSet bd.theaters_per_movie_cache movie_id s) } := by
  unfold BookingData.rebuild_cache_movie at h
  cases hm : bd.movie_list.get_string movie_id with
  | error err =>
    simp only [hm] at h
    cases h
  | ok title =>
    simp only [hm] at h
    cases hr : mapFind bd.rooms movie_id with
    | none =>
      simp only [hr] at h
      cases h
    | some rfm =>
      simp only [hr] at h
      cases hl : theaterLines bd.theater_list rfm with
      | error err =>
        simp only [hl] at h
        cases h
      | ok s =>
        simp only [hl] at h
        injection h with h
        exact ⟨rfm, s, rfl, hl, h.symm⟩

/-- Modelled from the spec's wording of the NameTable listing: the
concatenation of the given lines. -/
def lineJoin : List String → String
  | [] => ""
  | s :: rest => s ++ lineJoin rest

theorem idStringList_eq_lineJoin (l : List (Nat × String)) :
    idStringList l = lineJoin (l.map (fun e => toString e.1 ++ "," ++ e.2 ++ CBS_EOL)) := by
  suffices h : ∀ acc : String,
      l.foldl (fun acc e => acc ++ toString e.1 ++ "," ++ e.2 ++ CBS_EOL) acc =
        acc ++ lineJoin (l.map (fun e => toString e.1 ++ "," ++ e.2 ++ CBS_EOL)) by
    have h2 := h ""
    simp only [idStringList]
    rw [h2]
    simp
  induction l with
  | nil =>
    intro acc
    simp [lineJoin]
  | cons e rest ih =>
    intro acc
    simp only [List.foldl_cons, List.map_cons, lineJoin, ih]
    simp [String.append_assoc]

theorem storeCacheOk_new : storeCacheOk BookingData.new := by
  refine ⟨tableCacheOk_new, tableCacheOk_new, ?_, ?_⟩
  · intro e he
    exact absurd he (List.not_mem_nil e)
  · intro movie_id rfm hr
    exact Option.noConfusion hr

theorem storeCacheOk_clear (bd : BookingData) : storeCacheOk bd.clear := by
  refine ⟨tableCacheOk_clear bd.movie_list, tableCacheOk_clear bd.theater_list, ?_, ?_⟩
  · intro e he
    exact absurd he (List.not_mem_nil e)
  · intro movie_id rfm hr
    exact Option.noConfusion hr

/-- Replacing one movie's room sub-map and cache entry consistently keeps the
store's caches in agreement. -/
theorem storeCacheOk_set_room_entry (bd : BookingData) (hbd : storeCacheOk bd) (mi : Nat)
    (rfm2 : List (TheaterId × CinemaRoom)) (s : String)
    (hrooms : ∀ e2 ∈ rfm2, roomCacheOk e2.2)
    (hlines : theaterLines bd.theater_list rfm2 = .ok s) :
    storeCacheOk { bd with
      rooms := (mapSet bd.rooms mi rfm2)
      theaters_per_movie_cache := (mapSet bd.theaters_per_movie_cache mi s) } := by
  obtain ⟨h1, h2, h3, h4⟩ := hbd
  refine ⟨h1, h2, ?_, ?_⟩
  · intro e he e2 he2
    rcases mem_mapSet bd.rooms mi rfm2 e he with heq | hmem
    · rw [heq] at he2
      exact hrooms e2 he2
    · exact h3 e hmem e2 he2
  · intro m2 rfmx hrx
    by_cases hm2 : m2 = mi
    · subst hm2
      rw [mapFind_mapSet_self] at hrx
      injection hrx with hrx
      refine ⟨s, ?_, by rw [mapFind_mapSet_self]⟩
      rw [← hrx]
      exact hlines
    · rw [mapFind_mapSet_ne bd.rooms mi m2 rfm2 hm2] at hrx
      obtain ⟨sx, hx1, hx2⟩ := h4 m2 rfmx hrx
      refine ⟨sx, hx1, ?_⟩
      rw [mapFind_mapSet_ne bd.theaters_per_movie_cache mi m2 s hm2]
      exact hx2

theorem storeCacheOk_book_seats (bd : BookingData) (hbd : storeCacheOk bd)
    (mi ti : Nat) (seats : List Nat) : storeCacheOk (bd.book_seats mi ti seats).2 := by
  rcases hm : mapFind bd.rooms mi with _ | rfm
  · rw [book_seats_eq_of_no_movie bd mi ti seats hm]
    exact hbd
  · rcases ht : mapFind rfm ti with _ | room
    · rw [book_seats_eq_of_no_theater bd mi ti seats rfm hm ht]
      exact hbd
    · rw [book_seats_eq_of_room bd mi ti seats rfm room hm ht]
      obtain ⟨h1, h2, h3, h4⟩ := hbd
      have hroom : roomCacheOk room :=
        h3 (mi, rfm) (mapFind_mem bd.rooms mi rfm hm) (ti, room) (mapFind_mem rfm ti room ht)
      refine ⟨h1, h2, ?_, ?_⟩
      · intro e he e2 he2
        rcases mem_mapSet bd.rooms mi (mapSet rfm ti (room.book_seats seats).2) e he with
          heq | hmem
        · rw [heq] at he2
          rcases mem_mapSet rfm ti (room.book_seats seats).2 e2 he2 with heq2 | hmem2
          · rw [heq2]
            exact roomCacheOk_book room seats hroom
          · exact h3 (mi, rfm) (mapFind_mem bd.rooms mi rfm hm) e2 hmem2
        · exact h3 e hmem e2 he2
      · intro m2 rfmx hrx
        by_cases hm2 : m2 = mi
        · subst hm2
          rw [mapFind_mapSet_self] at hrx
          injection hrx with hrx
          obtain ⟨s, hs1, hs2⟩ := h4 m2 rfm hm
          refine ⟨s, ?_, hs2⟩
          rw [← hrx]
          rw [theaterLines_congr_keys bd.theater_list
            (mapSet rfm ti (room.book_seats seats).2) rfm
            (mapSet_keys rfm ti (room.book_seats seats).2 (by rw [ht]; rfl))]
          exact hs1
        · rw [mapFind_mapSet_ne bd.rooms mi m2 _ hm2] at hrx
          exact h4 m2 rfmx hrx

theorem storeCacheOk_add_theaters (bd : BookingData) (hbd : storeCacheOk bd)
    (names : List String) : storeCacheOk (bd.add_theaters names).2 := by
  obtain ⟨h1, h2, h3, h4⟩ := hbd
  by_cases hdup : ∃ name ∈ names, name ∈ bd.theater_list.strings
  · simp only [BookingData.add_theaters, StringIdMap.add_dup bd.theater_list names hdup]
    exact ⟨h1, h2, h3, h4⟩
  · simp only [BookingData.add_theaters, StringIdMap.add_ok bd.theater_list names hdup]
    refine ⟨h1, rfl, h3, ?_⟩
    intro m2 rfm hr
    obtain ⟨s, hs1, hs2⟩ := h4 m2 rfm hr
    refine ⟨s, ?_, hs2⟩
    refine theaterLines_mono bd.theater_list _ ?_ rfm s hs1
    intro tid s0 hfind
    exact mapFind_append_left bd.theater_list.id_strings
      (numberFrom bd.theater_list.next_id names) tid s0 hfind

theorem storeCacheOk_add_theaters_to_movie (bd : BookingData) (hbd : storeCacheOk bd)
    (mi : Nat) (theaters : List Nat) (bd2 : BookingData)
    (h : bd.add_theaters_to_movie mi theaters = (.ok (), bd2)) :
    storeCacheOk bd2 := by
  unfold BookingData.add_theaters_to_movie at h
  split at h
  · simp at h
  · next rfm hm =>
    split at h
    · simp at h
    · next hdup =>
      split at h
      · simp at h
      · next bd3 hrb =>
        simp only [Prod.mk.injEq] at h
        obtain ⟨-, h⟩ := h
        subst h
        obtain ⟨rfmx, s, hfind, hlines, hbd3eq⟩ := rebuild_cache_movie_ok_inv _ mi bd3 hrb
        have hrfmx : rfmx = createRooms rfm theaters := by
          have hself : mapFind (mapSet bd.rooms mi (createRooms rfm theaters)) mi =
              some (createRooms rfm theaters) :=
            mapFind_mapSet_self bd.rooms mi _
          rw [hself] at hfind
          injection hfind with hfind
          exact hfind.symm
        subst hrfmx
        rw [hbd3eq]
        refine storeCacheOk_set_room_entry bd hbd mi _ s ?_ hlines
        intro e2 he2
        rcases mem_foldl_emplace theaters rfm e2 he2 with h2 | h2
        · exact hbd.2.2.1 (mi, rfm) (mapFind_mem bd.rooms mi rfm hm) e2 h2
        · rw [h2]
          exact roomCacheOk_new

theorem addMovieRoom_error_absorb (ids : List Nat) (err : CbsError) (bd : BookingData) :
    ids.foldl addMovieRoom (.error err, bd) = (.error err, bd) := by
  induction ids with
  | nil => rfl
  | cons mid rest ih => exact ih

theorem storeCacheOk_addMovieRoom_fold (ids : List Nat) (bd : BookingData)
    (hbd : storeCacheOk bd)
    (hok : (ids.foldl addMovieRoom (.ok (), bd)).1 = .ok ()) :
    storeCacheOk (ids.foldl addMovieRoom (.ok (), bd)).2 := by
  induction ids generalizing bd with
  | nil => exact hbd
  | cons mid rest ih =>
    have hstep : (mid :: rest).foldl addMovieRoom ((.ok () : Except CbsError Unit), bd) =
        rest.foldl addMovieRoom (addMovieRoom (.ok (), bd) mid) := rfl
    cases hrb : BookingData.rebuild_cache_movie
        { bd with rooms := (mapSet bd.rooms mid []) } mid with
    | error err =>
      have hsv : addMovieRoom (.ok (), bd) mid =
          (.error err, { bd with rooms := (mapSet bd.rooms mid []) }) := by
        simp only [addMovieRoom, hrb]
      rw [hstep, hsv, addMovieRoom_error_absorb] at hok
      cases hok
    | ok bd3 =>
      have hsv : addMovieRoom (.ok (), bd) mid = (.ok (), bd3) := by
        simp only [addMovieRoom, hrb]
      rw [hstep, hsv] at hok ⊢
      refine ih bd3 ?_ hok
      obtain ⟨rfmx, s, hfind, hlines, hbd3eq⟩ := rebuild_cache_movie_ok_inv _ mid bd3 hrb
      have hrfmx : rfmx = [] := by
        have hself : mapFind (mapSet bd.rooms mid ([] : List (TheaterId × CinemaRoom))) mid =
            some [] := mapFind_mapSet_self bd.rooms mid []
        rw [hself] at hfind
        injection hfind with hfind
        exact hfind.symm
      subst hrfmx
      rw [hbd3eq]
      refine storeCacheOk_set_room_entry bd hbd mid [] s ?_ hlines
      intro e2 he2
      exact absurd he2 (List.not_mem_nil e2)

theorem storeCacheOk_add_movies (bd : BookingData) (hbd : storeCacheOk bd)
    (names : List String) (ids : List Nat) (bd2 : BookingData)
    (h : bd.add_movies names = (.ok ids, bd2)) :
    storeCacheOk bd2 := by
  unfold BookingData.add_movies at h
  split at h
  · simp at h
  · next inserted_ids ml heq =>
    split at h
    · simp at h
    · next u hf =>
      simp only [Prod.mk.injEq] at h
      obtain ⟨h1, h2⟩ := h
      subst h2
      cases u
      refine storeCacheOk_addMovieRoom_fold inserted_ids _ ?_ hf
      by_cases hdup : ∃ name ∈ names, name ∈ bd.movie_list.strings
      · rw [StringIdMap.add_dup bd.movie_list names hdup] at heq
        simp at heq
      · rw [StringIdMap.add_ok bd.movie_list names hdup] at heq
        simp only [Prod.mk.injEq] at heq
        obtain ⟨-, heq2⟩ := heq
        refine ⟨?_, hbd.2.1, hbd.2.2.1, hbd.2.2.2⟩
        rw [← heq2]
        rfl

/-- C7: after every mutating operation returns normally, the cached rendered
listing of each affected entity agrees with a from-scratch recomputation from
that entity's contents: a NameTable add or clear leaves the table cache equal
to the rendering of its id-to-name map — which is exactly the concatenation of
one line `<id>,<name>` terminated by CR LF per entry —, a room booking leaves
the seat cache equal to the rendering of the availability array, and every
store mutator (add_movies, add_theaters, assign, book, clear) preserves
agreement of all table, room and per-movie theater-listing caches. -/
theorem C7_cache_agreement :
    (∀ (m : StringIdMap) (names : List String),
      tableCacheOk m → tableCacheOk (m.add names).2) ∧
    (∀ m : StringIdMap, tableCacheOk m.clear) ∧
    (∀ (room : CinemaRoom) (S : List Nat),
      roomCacheOk room → roomCacheOk (room.book_seats S).2) ∧
    (∀ (bd : BookingData) (names : List String) (ids : List Nat) (bd2 : BookingData),
      storeCacheOk bd → bd.add_movies names = (.ok ids, bd2) → storeCacheOk bd2) ∧
    (∀ (bd : BookingData) (names : List String),
      storeCacheOk bd → storeCacheOk (bd.add_theaters names).2) ∧
    (∀ (bd : BookingData) (mi : Nat) (theaters : List Nat) (bd2 : BookingData),
      storeCacheOk bd → bd.add_theaters_to_movie mi theaters = (.ok (), bd2) →
        storeCacheOk bd2) ∧
    (∀ (bd : BookingData) (mi ti : Nat) (seats : List Nat),
      storeCacheOk bd → storeCacheOk (bd.book_seats mi ti seats).2) ∧
    (∀ bd : BookingData, storeCacheOk bd.clear) ∧
    storeCacheOk BookingData.new ∧
    (∀ m : StringIdMap, tableCacheOk m →
      m.cached_list =
        lineJoin (m.id_strings.map (fun e => toString e.1 ++ "," ++ e.2 ++ CBS_EOL))) := by
  refine ⟨tableCacheOk_add, tableCacheOk_clear, roomCacheOk_book, ?_, ?_, ?_, ?_,
    storeCacheOk_clear, storeCacheOk_new, ?_⟩
  · intro bd names ids bd2 hbd h
    exact storeCacheOk_add_movies bd hbd names ids bd2 h
  · intro bd names hbd
    exact storeCacheOk_add_theaters bd hbd names
  · intro bd mi theaters bd2 hbd h
    exact storeCacheOk_add_theaters_to_movie bd hbd mi theaters bd2 h
  · intro bd mi ti seats hbd
    exact storeCacheOk_book_seats bd hbd mi ti seats
  · intro m h
    exact h.trans (idStringList_eq_lineJoin m.id_strings)

/-- Witness for `C7_cache_agreement`: the cache-agreement invariant holds of
the table after one add and of the concretely populated `sampleStore`,
threading the conditional conjuncts through an actual operation sequence. -/
theorem C7_cache_agreement_witness :
    tableCacheOk (StringIdMap.new.add ["A"]).2 ∧ storeCacheOk sampleStore := by
  have e1 : BookingData.new.add_movies ["M"] =
      (.ok [1], (BookingData.new.add_movies ["M"]).2) := rfl
  have h1 : storeCacheOk (BookingData.new.add_movies ["M"]).2 :=
    C7_cache_agreement.2.2.2.1 BookingData.new ["M"] [1]
      (BookingData.new.add_movies ["M"]).2 C7_cache_agreement.2.2.2.2.2.2.2.2.1 e1
  have h2 : storeCacheOk ((BookingData.new.add_movies ["M"]).2.add_theaters ["T"]).2 :=
    C7_cache_agreement.2.2.2.2.1 (BookingData.new.add_movies ["M"]).2 ["T"] h1
  have e2 : ((BookingData.new.add_movies ["M"]).2.add_theaters ["T"]).2.add_theaters_to_movie
      1 [1] = (.ok (), sampleStore) := rfl
  have h3 : storeCacheOk sampleStore :=
    C7_cache_agreement.2.2.2.2.2.1
      ((BookingData.new.add_movies ["M"]).2.add_theaters ["T"]).2 1 [1] sampleStore h2 e2
  exact ⟨C7_cache_agreement.1 StringIdMap.new ["A"] tableCacheOk_new, h3⟩
